import Mathlib

/-!
Verification of the swget download tool (src/main.rs) against its
natural-language specification.  The Rust source is shallowly embedded:
pure fragments become Lean functions, the effectful pipeline becomes
functions from the observed server behaviour (statuses, bodies, header
values) to results, and a Rust panic (a firing assert_eq) is an explicit
constructor of the result type, since a panic inside a rayon task unwinds
out of the parallel collect and aborts the whole process.  Machine
integers (usize) are modelled as Nat with explicit wrap-around modulo 2^64
where the source can overflow.  Rust strings handled character by
character are modelled as List Char.
-/

/-- BUFFER_SIZE constant from src/main.rs line 29: 1024 * 1024. -/
def BUFFER_SIZE : Nat := 1024 * 1024

/-- Number of values representable by usize (64-bit target). -/
def USIZE_CARD : Nat := 18446744073709551616

/-- Wrapping subtraction on usize, as performed by a release build of the
source when the subtrahend exceeds the minuend (src/main.rs line 90 computes
range.1 - 1 on a usize). -/
def usizeSub (a b : Nat) : Nat := (a + (USIZE_CARD - b % USIZE_CARD)) % USIZE_CARD

/-- Range plan built inside RemoteFile.rdownload (src/main.rs lines 106-115),
with the chunk size a parameter (the source instantiates it with
BUFFER_SIZE): first floor (length / chunk) full ranges, then the trailing
range pushed unconditionally by ranges.push. -/
def ranges (length chunk : Nat) : List (Nat × Nat) :=
  ((List.range (length / chunk)).map (fun i => (i * chunk, (i + 1) * chunk)))
    ++ [(chunk * (length / chunk), length)]

/-- The Range header value built by get_ranged_data (src/main.rs line 90):
format of bytes=start-(end - 1), where end - 1 is usize subtraction. -/
def range_content (range : Nat × Nat) : String :=
  "bytes=" ++ toString range.1 ++ "-" ++ toString (usizeSub range.2 1)

/-- get_ranged_data (src/main.rs lines 86-103) reduced to its observable
behaviour: given the response status for the ranged request and the body the
server delivers, it returns the body iff the status is exactly 206
(the PARTIAL_CONTENT status of the reqwest StatusCode type); any other
status yields None. -/
def get_ranged_data (status : Nat) (body : List Nat) : Option (List Nat) :=
  if status = 206 then some body else none

/-- Result of one item download.  ok means the download function returned
Some(name); failed means it returned None (the per-item error path);
panicked means the assert_eq on the byte count fired, which in Rust unwinds
and aborts the whole process. -/
inductive ItemResult where
  | ok : ItemResult
  | failed : ItemResult
  | panicked : ItemResult
deriving DecidableEq

/-- Collecting a list of Options into an Option of a list, as the
collect call producing data in rdownload (src/main.rs lines 106-120)
does: None as soon as any element is None. -/
def collectOptions : List (Option α) → Option (List α)
  | [] => some []
  | none :: _ => none
  | some a :: rest => (collectOptions rest).map (fun l => a :: l)

/-- Assembly step of RemoteFile.rdownload (src/main.rs lines 122-130): if the
collected data is None the function returns None (failed); otherwise it
writes all buffers with one vectored write and asserts that the declared
length equals the number of bytes written (the sum of the buffer lengths);
a mismatch fires assert_eq, i.e. panics. -/
def rdownloadAssemble (length : Nat) (data : Option (List (List Nat))) : ItemResult :=
  match data with
  | none => ItemResult.failed
  | some buffers =>
      if length = (buffers.map List.length).sum then ItemResult.ok
      else ItemResult.panicked

/-- RemoteFile.rdownload (src/main.rs lines 85-131) as a function of the
declared length and of the per-range fetch outcome: plan the ranges, fetch
each one (the results are collected positionally by the parallel iterator),
then assemble. -/
def rdownloadRun (length : Nat) (fetch : Nat × Nat → Option (List Nat)) : ItemResult :=
  rdownloadAssemble length (collectOptions ((ranges length BUFFER_SIZE).map fetch))

/-- Read/write loop of RemoteFile.sdownload (src/main.rs lines 136-145):
repeatedly read up to BUFFER_SIZE bytes from the response body and write
them through, stopping at the first empty read.  The loop consumes at least
one byte per iteration, so a fuel of one unit per remaining byte is enough;
sdownloadBytes below supplies that fuel. -/
def sdownloadAux : Nat → List Nat → List Nat
  | _, [] => []
  | 0, _ => []
  | fuel + 1, content =>
      content.take BUFFER_SIZE ++ sdownloadAux fuel (content.drop BUFFER_SIZE)

/-- Byte stream written by the sdownload loop for a response body. -/
def sdownloadBytes (content : List Nat) : List Nat :=
  sdownloadAux content.length content

/-- RemoteFile.sdownload (src/main.rs lines 133-149): stream the body, count
the bytes written, then assert the count equals the declared length
(src/main.rs line 146); a mismatch panics. -/
def sdownloadRun (length : Nat) (content : List Nat) : ItemResult :=
  if length = (sdownloadBytes content).length then ItemResult.ok
  else ItemResult.panicked

/-- Bytes a range-honouring server delivers for a half-open range of its
content: the slice content[start .. end). -/
def sliceBytes (content : List Nat) (range : Nat × Nat) : List Nat :=
  (content.drop range.1).take (range.2 - range.1)

/-- The rayon parallel collect used at both fan-out levels (src/main.rs
lines 117-119 and 225-260): tasks finish in some completion order, but each
result is stored at the slot indexed by its input position.  order lists the
indices in completion order; slots not yet (or never) completed hold none. -/
def parCollect (f : α → β) (xs : List α) (order : List Nat) : List (Option β) :=
  order.foldl (fun acc i => acc.set i (xs[i]?.map f)) (List.replicate xs.length none)

/-- The filter of the collected per-item results in main (src/main.rs lines
261-264): keep the entries that are Some and unwrap them. -/
def ok_uris (results : List (Option String)) : List String :=
  results.filterMap id

/-- Result of the whole batch: either the process ran to the end with the
given list of succeeded uris, or some task panicked, which unwinds out of
the parallel collect and aborts the process. -/
inductive BatchResult where
  | completed : List String → BatchResult
  | aborted : BatchResult
deriving DecidableEq

/-- The batch loop of main (src/main.rs lines 225-264) as a function of the
per-uri outcome: if any per-uri task panics the run aborts; otherwise each
uri is downloaded independently and the succeeded uris are kept, in input
order (the parallel collect is positional). -/
def runBatch (item : String → ItemResult) (uris : List String) : BatchResult :=
  if uris.any (fun u => item u = ItemResult.panicked) then BatchResult.aborted
  else BatchResult.completed (uris.filter (fun u => item u = ItemResult.ok))

/-- The log text written by main (src/main.rs line 268): the succeeded uris
joined by newlines, with the final newline appended by writeln. -/
def logText (okUris : List String) : String :=
  String.intercalate "\n" okUris ++ "\n"

/-- Final message printed by main (src/main.rs lines 272-278): either the
summary with elapsed seconds, succeeded count, total count and log path, or
the distinct nothing-downloaded message. -/
inductive RunMessage where
  | done : Nat → Nat → Nat → String → RunMessage
  | nothingDownloaded : RunMessage
deriving DecidableEq

/-- End of main (src/main.rs lines 266-279): if ok_uris is non-empty the log
file is written with one uri per line and the summary is printed; otherwise
no log file is created and the nothing-downloaded message is printed.  The
first component is the content of the log file, if one is written. -/
def finishRun (okUris : List String) (totalCount elapsedSecs : Nat)
    (logPath : String) : Option String × RunMessage :=
  if !okUris.isEmpty then
    (some (logText okUris),
     RunMessage.done elapsedSecs okUris.length totalCount logPath)
  else (none, RunMessage.nothingDownloaded)

/-- Rust char split, as used on the content-disposition header value
(src/main.rs lines 61-63): split at every occurrence of the separator;
n separators yield n + 1 parts, empty parts included. -/
def splitOnChar (sep : Char) : List Char → List (List Char)
  | [] => [[]]
  | c :: rest =>
      if c = sep then [] :: splitOnChar sep rest
      else
        match splitOnChar sep rest with
        | [] => [[c]]
        | h :: t => (c :: h) :: t

/-- Rust str contains, as used to look for the filename marker
(src/main.rs line 62): some contiguous slice equals the pattern. -/
def containsSlice (pat : List Char) : List Char → Bool
  | [] => List.isPrefixOf pat []
  | c :: rest => List.isPrefixOf pat (c :: rest) || containsSlice pat rest

/-- Name resolution of RemoteFile.from (src/main.rs lines 56-73), given a
success status: if the content-disposition header is present, a name is
derived only by parsing it (split on the semicolon, first segment containing
the filename marker, split on the equals sign into exactly two parts, second
part taken); the URL path — the full path, via PathBuf::from(url.path()) —
is used only when the header is absent.  A present header that is empty or
yields no name leaves the name None, and RemoteFile.from then fails. -/
def resolveName (ctd : Option (List Char)) (urlPath : List Char) :
    Option (List Char) :=
  match ctd with
  | some ctd =>
      if ctd ≠ [] then
        match (splitOnChar ';' ctd).find?
            (fun v => containsSlice "filename".data v) with
        | some fv =>
            if (splitOnChar '=' fv).length = 2 then
              some ((splitOnChar '=' fv).getD 1 [])
            else none
        | none => none
      else none
  | none => some urlPath

/-- RemoteFile.from (src/main.rs lines 39-83) as a function of the probe
response: the content length is required first (line 55, the question mark
on content_length), the name is resolved only under a success status, and
the whole constructor fails when no name was derived. -/
def RemoteFile.fromProbe (status : Nat) (contentLength : Option Nat)
    (ctd : Option (List Char)) (urlPath : List Char) :
    Option (List Char × Nat) :=
  match contentLength with
  | none => none
  | some length =>
      match (if 200 ≤ status ∧ status ≤ 299 then resolveName ctd urlPath
             else none) with
      | some name => some (name, length)
      | none => none

/-- Bytes written by a successful concurrent download (src/main.rs lines
106-125): every planned range was fetched with status 206 from a server that
honours ranges over content, the chunks are collected positionally by the
parallel iterator while they complete in the order given by order, and the
vectored write then emits the buffers in slot order. -/
def rdownloadWrites (length : Nat) (content : List Nat) (order : List Nat) : List Nat :=
  ((parCollect (fun r => sliceBytes content r) (ranges length BUFFER_SIZE) order).filterMap
      id).flatten

/-! Helper lemmas. -/

theorem take_add_split (l : List α) (m n : Nat) :
    l.take (m + n) = l.take m ++ (l.drop m).take n := by
  rw [List.take_drop]
  have h1 : l.take m = (l.take (m + n)).take m := by
    rw [List.take_take]
    congr 1
    exact (Nat.min_eq_left (Nat.le_add_right m n)).symm
  rw [h1]
  exact (List.take_append_drop m (l.take (m + n))).symm

theorem flatten_full_slices (content : List Nat) (B : Nat) (k : Nat) :
    ((List.range k).map (fun i => sliceBytes content (i * B, (i + 1) * B))).flatten
      = content.take (k * B) := by
  induction k with
  | zero => simp
  | succ k ih =>
      rw [List.range_succ, List.map_append, List.flatten_append, ih]
      simp only [List.map_cons, List.map_nil, List.flatten_cons, List.flatten_nil,
        List.append_nil, sliceBytes]
      have h1 : (k + 1) * B - k * B = B := by
        rw [Nat.succ_mul]
        omega
      rw [h1, Nat.succ_mul, take_add_split]

theorem flatten_slices_ranges (content : List Nat) (n B : Nat) :
    ((ranges n B).map (sliceBytes content)).flatten = content.take n := by
  unfold ranges
  rw [List.map_append, List.flatten_append, List.map_map]
  have h1 : (sliceBytes content) ∘ (fun i => (i * B, (i + 1) * B))
      = fun i => sliceBytes content (i * B, (i + 1) * B) := rfl
  rw [h1, flatten_full_slices]
  simp only [List.map_cons, List.map_nil, List.flatten_cons, List.flatten_nil,
    List.append_nil, sliceBytes]
  have h2 : B * (n / B) = n / B * B := Nat.mul_comm B (n / B)
  rw [h2]
  have h3 : n / B * B ≤ n := Nat.div_mul_le_self n B
  have h4 : n = n / B * B + (n - n / B * B) := by omega
  conv_rhs => rw [h4]
  rw [take_add_split]

theorem sdownloadAux_eq (fuel : Nat) :
    ∀ content : List Nat, content.length ≤ fuel → sdownloadAux fuel content = content := by
  induction fuel with
  | zero =>
      intro content h
      have : content = [] := List.eq_nil_of_length_eq_zero (Nat.le_zero.mp h)
      subst this
      rfl
  | succ fuel ih =>
      intro content h
      cases content with
      | nil => rfl
      | cons c rest =>
          show (c :: rest).take BUFFER_SIZE
              ++ sdownloadAux fuel ((c :: rest).drop BUFFER_SIZE) = c :: rest
          rw [ih ((c :: rest).drop BUFFER_SIZE)
            (by simp only [List.length_drop, List.length_cons, BUFFER_SIZE]
                simp only [List.length_cons] at h
                omega)]
          exact List.take_append_drop _ _

theorem sdownloadBytes_eq (content : List Nat) : sdownloadBytes content = content :=
  sdownloadAux_eq content.length content (Nat.le_refl _)

theorem collectOptions_eq_none {l : List (Option α)} (h : none ∈ l) :
    collectOptions l = none := by
  induction l with
  | nil => cases h
  | cons a rest ih =>
      cases a with
      | none => rfl
      | some b =>
          have : none ∈ rest := by
            cases h with
            | tail _ h2 => exact h2
          show (collectOptions rest).map _ = none
          rw [ih this]
          rfl

theorem foldl_set_getElem? (g : Nat → Option β) (order : List Nat)
    (acc : List (Option β)) (j : Nat) :
    (order.foldl (fun a i => a.set i (g i)) acc)[j]? =
      if j ∈ order ∧ j < acc.length then some (g j) else acc[j]? := by
  induction order generalizing acc with
  | nil => simp
  | cons i rest ih =>
      rw [List.foldl_cons, ih, List.length_set]
      by_cases hj : j < acc.length
      · by_cases hmem : j ∈ rest
        · rw [if_pos ⟨hmem, hj⟩, if_pos ⟨List.mem_cons_of_mem i hmem, hj⟩]
        · rw [if_neg (fun hc => hmem hc.1)]
          by_cases hij : j = i
          · subst hij
            rw [List.getElem?_set_self hj, if_pos ⟨List.mem_cons_self j rest, hj⟩]
          · rw [List.getElem?_set_ne (fun hc => hij hc.symm), if_neg]
            intro hc
            cases List.mem_cons.mp hc.1 with
            | inl hh => exact hij hh
            | inr hh => exact hmem hh
      · rw [if_neg (fun hc => hj hc.2), if_neg (fun hc => hj hc.2)]
        have hle : acc.length ≤ j := Nat.le_of_not_lt hj
        rw [List.getElem?_eq_none (by simp [hle]), List.getElem?_eq_none hle]

theorem parCollect_perm (f : α → β) (xs : List α) (order : List Nat)
    (h : order.Perm (List.range xs.length)) :
    parCollect f xs order = xs.map (fun x => some (f x)) := by
  apply List.ext_getElem?
  intro j
  unfold parCollect
  have hfold := foldl_set_getElem? (fun i => xs[i]?.map f) order
    (List.replicate xs.length none) j
  rw [List.length_replicate] at hfold
  rw [hfold]
  by_cases hj : j < xs.length
  · have hmem : j ∈ order := (h.mem_iff).mpr (List.mem_range.mpr hj)
    rw [if_pos ⟨hmem, hj⟩, List.getElem?_map, List.getElem?_eq_getElem hj]
    rfl
  · have hle : xs.length ≤ j := Nat.le_of_not_lt hj
    rw [if_neg (fun hc => hj hc.2),
      List.getElem?_eq_none (by simp [hle]),
      List.getElem?_eq_none (by simp [hle])]

theorem filterMap_id_map_some (l : List γ) (g : γ → δ) :
    (l.map (fun x => some (g x))).filterMap id = l.map g := by
  induction l with
  | nil => rfl
  | cons a t ih => simp [List.filterMap_cons, ih]

/-! Claim theorems. -/

/-- C1: the claim says the plan has ceil (length / chunk) ranges, zero of
them when length is zero, and in particular no zero-length trailing range
when length is an exact multiple of the chunk size.  The code pushes the
trailing range unconditionally: at length 2 * BUFFER_SIZE it produces three
ranges, the last of them the zero-length (2 * BUFFER_SIZE, 2 * BUFFER_SIZE),
while the ceiling is two. -/
theorem ranges_exact_multiple_zero_range :
    ranges (2 * BUFFER_SIZE) BUFFER_SIZE
        = [(0, BUFFER_SIZE), (BUFFER_SIZE, 2 * BUFFER_SIZE),
           (2 * BUFFER_SIZE, 2 * BUFFER_SIZE)]
    ∧ (ranges (2 * BUFFER_SIZE) BUFFER_SIZE).length = 3
    ∧ (2 * BUFFER_SIZE + BUFFER_SIZE - 1) / BUFFER_SIZE = 2 := by
  decide

/-- C2 counterexample: a byte-count mismatch (declared length 5, three bytes
delivered) does not surface as the per-item failed outcome; the assert_eq
fires, i.e. the process panics, in both concurrent and sequential mode. -/
theorem mismatch_panics_concrete :
    rdownloadRun 5 (fun _ => get_ranged_data 206 [9, 9, 9]) = ItemResult.panicked
    ∧ sdownloadRun 5 [9, 9, 9] = ItemResult.panicked
    ∧ ItemResult.panicked ≠ ItemResult.failed := by
  decide

/-- C2 amended: whenever the total number of bytes written differs from the
declared length, both download modes hit the assert_eq and panic, aborting
the process instead of recording a per-item failure. -/
theorem mismatch_panics (length : Nat) (buffers : List (List Nat))
    (content : List Nat)
    (h1 : length ≠ (buffers.map List.length).sum)
    (h2 : length ≠ content.length) :
    rdownloadAssemble length (some buffers) = ItemResult.panicked
    ∧ sdownloadRun length content = ItemResult.panicked := by
  constructor
  · show (if length = (buffers.map List.length).sum then ItemResult.ok
      else ItemResult.panicked) = ItemResult.panicked
    rw [if_neg h1]
  · unfold sdownloadRun
    rw [sdownloadBytes_eq, if_neg h2]

/-- C2 witness. -/
theorem mismatch_panics_check :
    rdownloadAssemble 5 (some [[9, 9, 9]]) = ItemResult.panicked
    ∧ sdownloadRun 5 [7] = ItemResult.panicked :=
  mismatch_panics 5 [[9, 9, 9]] [7] (by decide) (by decide)

/-- C3: get_ranged_data returns the body exactly when the status is 206; a
non-206 status (a generic 200 included) makes the range fetch None, which
makes the whole rdownload None (the item fails), and a failed item is
excluded from the success list of the batch. -/
theorem partial_content_gate (s : Nat) (b : List Nat) (length : Nat)
    (st : Nat × Nat → Nat) (body : Nat × Nat → List Nat) (r : Nat × Nat)
    (item : String → ItemResult) (uris : List String) (u : String)
    (ok : List String)
    (hs : s ≠ 206) (hr : r ∈ ranges length BUFFER_SIZE) (hst : st r ≠ 206)
    (hitem : item u = ItemResult.failed)
    (hrun : runBatch item uris = BatchResult.completed ok) :
    get_ranged_data s b = none
    ∧ get_ranged_data 206 b = some b
    ∧ rdownloadRun length (fun q => get_ranged_data (st q) (body q))
        = ItemResult.failed
    ∧ u ∉ ok := by
  refine ⟨?_, rfl, ?_, ?_⟩
  · unfold get_ranged_data
    rw [if_neg hs]
  · unfold rdownloadRun
    have hnone : (none : Option (List Nat))
        ∈ (ranges length BUFFER_SIZE).map
            (fun q => get_ranged_data (st q) (body q)) := by
      have hgrd : get_ranged_data (st r) (body r) = none := by
        unfold get_ranged_data
        rw [if_neg hst]
      rw [← hgrd]
      exact List.mem_map_of_mem _ hr
    rw [collectOptions_eq_none hnone]
    rfl
  · unfold runBatch at hrun
    split at hrun
    · cases hrun
    · injection hrun with hok
      intro hmem
      rw [← hok] at hmem
      have hu := (List.mem_filter.mp hmem).2
      have hu2 : item u = ItemResult.ok := by simpa using hu
      rw [hitem] at hu2
      exact absurd hu2 (by decide)

/-- C3 witness. -/
theorem partial_content_gate_check :
    get_ranged_data 200 [1, 2] = none
    ∧ get_ranged_data 206 [1, 2] = some [1, 2]
    ∧ rdownloadRun 3 (fun _ => get_ranged_data 200 [1, 2, 3])
        = ItemResult.failed
    ∧ "x" ∉ (["y"] : List String) :=
  partial_content_gate 200 [1, 2] 3 (fun _ => 200) (fun _ => [1, 2, 3]) (0, 3)
    (fun u => if u = "x" then ItemResult.failed else ItemResult.ok)
    ["x", "y"] "x" ["y"]
    (by decide) (by decide) (by decide) (by decide) (by decide)

/-- C4 counterexample: in a batch of two uris where the first ends in a
byte-count mismatch during assembly and the second succeeds, the whole run
aborts (the assert_eq panic unwinds out of the parallel collect); it does
not complete with a log naming the second uri, as the claim requires. -/
theorem batch_abort_on_mismatch :
    runBatch
        (fun u => if u = "a"
          then rdownloadRun 5 (fun _ => get_ranged_data 206 [9, 9, 9])
          else rdownloadRun 3 (fun _ => get_ranged_data 206 [1, 2, 3]))
        ["a", "b"]
      = BatchResult.aborted
    ∧ BatchResult.aborted ≠ BatchResult.completed ["b"] := by
  decide

/-- C4 amended: as long as no item panics (failures at resolution, planning,
fetch, or a missing chunk, which all travel the Option path), every failure
is isolated to its own uri, the run completes, and the success list is
exactly the uris whose own outcome is ok, in input order; an assembly
byte-count mismatch, however, panics and aborts the whole process. -/
theorem batch_isolation_no_panic (item : String → ItemResult)
    (uris : List String) (u : String)
    (h : ∀ v, v ∈ uris → item v ≠ ItemResult.panicked) :
    runBatch item uris
        = BatchResult.completed (uris.filter (fun v => item v = ItemResult.ok))
    ∧ (u ∈ uris.filter (fun v => item v = ItemResult.ok)
        ↔ u ∈ uris ∧ item u = ItemResult.ok) := by
  constructor
  · have hfalse : ¬(uris.any (fun v => item v = ItemResult.panicked) = true) := by
      rw [List.any_eq_true]
      rintro ⟨v, hv, hp⟩
      exact h v hv (by simpa using hp)
    unfold runBatch
    rw [if_neg hfalse]
  · constructor
    · intro hm
      have hm2 := List.mem_filter.mp hm
      exact ⟨hm2.1, by simpa using hm2.2⟩
    · rintro ⟨h1, h2⟩
      exact List.mem_filter.mpr ⟨h1, by simpa using h2⟩

/-- C4 witness. -/
theorem batch_isolation_no_panic_check :
    runBatch (fun u => if u = "a" then ItemResult.ok else ItemResult.failed)
        ["a", "b"]
        = BatchResult.completed
            (["a", "b"].filter
              (fun v => (if v = "a" then ItemResult.ok else ItemResult.failed)
                = ItemResult.ok))
    ∧ ("b" ∈ ["a", "b"].filter
          (fun v => (if v = "a" then ItemResult.ok else ItemResult.failed)
            = ItemResult.ok)
        ↔ "b" ∈ ["a", "b"]
          ∧ (if "b" = "a" then ItemResult.ok else ItemResult.failed)
            = ItemResult.ok) :=
  batch_isolation_no_panic
    (fun u => if u = "a" then ItemResult.ok else ItemResult.failed)
    ["a", "b"] "b" (by decide)

/-- C5: for a successful concurrent download (every planned range fetched
from a range-honouring server over content whose true length equals the
declared length), the bytes written are the same as those the sequential
full-body loop writes, whatever completion order the range tasks finish
in. -/
theorem concurrent_matches_sequential (content : List Nat) (order : List Nat)
    (h : order.Perm (List.range (ranges content.length BUFFER_SIZE).length)) :
    rdownloadWrites content.length content order = sdownloadBytes content := by
  unfold rdownloadWrites
  rw [parCollect_perm _ _ _ h, sdownloadBytes_eq, filterMap_id_map_some,
    flatten_slices_ranges, List.take_length]

/-- C5 witness. -/
theorem concurrent_matches_sequential_check :
    rdownloadWrites 3 [1, 2, 3] [0] = sdownloadBytes [1, 2, 3] :=
  concurrent_matches_sequential [1, 2, 3] [0] (by decide)

/-- C6 counterexample: the claim says that a present-but-empty
content-disposition header falls back to the final path segment of the URL
(here b.bin), so the resolver should produce a name; the code only falls
back when the header is absent, so the empty header yields no name at all.
And when the header is absent, the code takes the full URL path, not the
final segment. -/
theorem name_fallback_counterexample :
    resolveName (some []) "/a/b.bin".data = none
    ∧ resolveName none "/a/b.bin".data = some "/a/b.bin".data
    ∧ "/a/b.bin".data ≠ "b.bin".data := by
  decide

/-- C6 amended: under a success status, a name is taken from the
content-disposition header when it is present, non-empty, and parsing it
(split on the semicolon, first segment containing the filename marker, split
on the equals sign into exactly two parts) yields a value; the full URL path
is used only when the header is absent; a present header that is empty (or
unparseable) derives no name, and then RemoteFile.from fails even though the
URL path could have supplied one. -/
theorem name_policy (status : Nat) (L : Nat) (ctd : List Char)
    (urlPath : List Char) (fv : List Char)
    (hs : 200 ≤ status ∧ status ≤ 299)
    (h0 : ctd ≠ [])
    (h1 : (splitOnChar ';' ctd).find?
        (fun v => containsSlice "filename".data v) = some fv)
    (h2 : (splitOnChar '=' fv).length = 2) :
    resolveName (some ctd) urlPath = some ((splitOnChar '=' fv).getD 1 [])
    ∧ resolveName none urlPath = some urlPath
    ∧ resolveName (some []) urlPath = none
    ∧ RemoteFile.fromProbe status (some L) (some []) urlPath = none := by
  refine ⟨?_, rfl, rfl, ?_⟩
  · simp only [resolveName, if_pos h0, h1, if_pos h2]
  · unfold RemoteFile.fromProbe
    rw [if_pos hs]
    rfl

/-- C6 witness. -/
theorem name_policy_check :
    resolveName (some "attachment; filename=setup.exe".data) "/x/y".data
        = some "setup.exe".data
    ∧ resolveName none "/x/y".data = some "/x/y".data
    ∧ resolveName (some []) "/x/y".data = none
    ∧ RemoteFile.fromProbe 200 (some 7) (some []) "/x/y".data = none :=
  name_policy 200 7 "attachment; filename=setup.exe".data "/x/y".data
    " filename=setup.exe".data
    (by decide) (by decide) (by decide) (by decide)

/-- C7: the claim says a declared length of zero yields an empty range plan
and a vacuously successful zero-byte download.  The code instead plans the
single zero-length range (0, 0), and the range header built for it
underflows end - 1, wrapping to the huge inclusive bound below in a release
build (and panicking outright in a debug build), so the ranged request is
not a well-formed byte range and the item cannot succeed. -/
theorem zero_length_plan_nonempty :
    ranges 0 BUFFER_SIZE = [(0, 0)]
    ∧ ranges 0 BUFFER_SIZE ≠ []
    ∧ range_content (0, 0) = "bytes=0-18446744073709551615" := by
  decide

/-- C8: if at least one item succeeded the log file is written, holding the
succeeded uris joined one per line, and the summary carries the elapsed
seconds, the succeeded count, the total count and the log path; if nothing
succeeded no log is written and the distinct nothing-downloaded message is
printed instead. -/
theorem finish_report (okUris : List String) (total elapsed : Nat)
    (path : String) (h : okUris ≠ []) :
    finishRun okUris total elapsed path
        = (some (String.intercalate "\n" okUris ++ "\n"),
           RunMessage.done elapsed okUris.length total path)
    ∧ finishRun [] total elapsed path = (none, RunMessage.nothingDownloaded) := by
  constructor
  · have hne : okUris.isEmpty = false := by
      cases okUris with
      | nil => exact absurd rfl h
      | cons a t => rfl
    simp [finishRun, hne, logText]
  · rfl

/-- C8 witness. -/
theorem finish_report_check :
    finishRun ["a"] 2 7 "downloaded_files.log"
        = (some (String.intercalate "\n" ["a"] ++ "\n"),
           RunMessage.done 7 1 2 "downloaded_files.log")
    ∧ finishRun [] 2 7 "downloaded_files.log"
        = (none, RunMessage.nothingDownloaded) :=
  finish_report ["a"] 2 7 "downloaded_files.log" (by decide)

/-- C9: for every genuine half-open range (start strictly below end, end in
usize range), the Range header is the inclusive byte range
bytes=start-(end - 1). -/
theorem range_header_inclusive (range : Nat × Nat) (h1 : range.1 < range.2)
    (h2 : range.2 < USIZE_CARD) :
    range_content range
        = "bytes=" ++ toString range.1 ++ "-" ++ toString (range.2 - 1) := by
  unfold range_content
  have hsub : usizeSub range.2 1 = range.2 - 1 := by
    simp only [USIZE_CARD] at h2
    simp only [usizeSub, USIZE_CARD]
    omega
  rw [hsub]

/-- C9 witness. -/
theorem range_header_inclusive_check :
    range_content (0, 2) = "bytes=" ++ toString (0 : Nat) ++ "-"
        ++ toString ((2 : Nat) - 1) :=
  range_header_inclusive (0, 2) (by decide) (by decide)

/-- C10: whatever order the per-uri tasks complete in (any permutation of
the input positions), the positional collect yields the per-uri outcomes in
input-list order, so the filtered success log equals the input-order
filtering of the outcomes and is identical across runs that differ only in
completion order. -/
theorem log_input_order (item : String → Option String) (uris : List String)
    (order : List Nat) (h : order.Perm (List.range uris.length)) :
    ok_uris ((parCollect item uris order).filterMap id) = uris.filterMap item := by
  rw [parCollect_perm _ _ _ h]
  unfold ok_uris
  rw [filterMap_id_map_some, List.filterMap_map]
  simp [Function.comp_def]

/-- C10 witness. -/
theorem log_input_order_check :
    ok_uris ((parCollect (fun u => if u = "a" then some u else none)
        ["a", "b"] [1, 0]).filterMap id)
      = ["a", "b"].filterMap (fun u => if u = "a" then some u else none) :=
  log_input_order (fun u => if u = "a" then some u else none) ["a", "b"] [1, 0]
    (by decide)
